import Mathlib

/-!
Verification of the ASC 842 lease-accounting calculation engine.

The engine (source: `lease-calculations.ts` together with its `types.ts`
data model and the `validations.ts` input schema) is a pure pipeline:
term resolution, present-value measurement, month-by-month amortization,
and double-entry journal construction.  JavaScript numbers are modelled
as exact rationals (ℚ); `Math.round(x * 100) / 100` is modelled as
`round2`.  Calendar dates (ISO date strings in the source) are modelled
as explicit year/month/day records.
-/

namespace ASC842

/-- Rounding to cents, the model of `Math.round(x * 100) / 100`.
`Math.round` rounds half away from zero toward +∞, i.e. `⌊x + 1/2⌋`. -/
def round2 (x : ℚ) : ℚ := (⌊x * 100 + 1/2⌋ : ℚ) / 100

/-- A calendar date.  The source passes ISO `YYYY-MM-DD` strings and reads
them back through JavaScript `Date`; we model the parsed date directly.
`month` is the 1-based calendar month. -/
structure CalendarDate where
  year : ℤ
  month : ℤ
  day : ℤ
deriving DecidableEq

/-- JavaScript `Date.prototype.getFullYear`. -/
def getFullYear (d : CalendarDate) : ℤ := d.year

/-- JavaScript `Date.prototype.getMonth` (0-based month). -/
def getMonth (d : CalendarDate) : ℤ := d.month - 1

/-- JavaScript `setMonth` month-overflow normalization: advancing a date by
`k` calendar months, keeping the day.  (JS additionally clamps/overflows the
day-of-month for short target months; no verified property reads the
schedule's `date` field, so day clamping is not modelled.) -/
def addMonths (d : CalendarDate) (k : ℤ) : CalendarDate :=
  let t := (d.month - 1) + k
  { year := d.year + Int.ediv t 12, month := Int.emod t 12 + 1, day := d.day }

/-- The `LeaseData` input record of `types.ts`.  Optional monetary fields
are `Option ℚ` (absent ⇒ `undefined` in the source). -/
structure LeaseData where
  id : Option String := none
  userId : String
  leaseName : String
  leaseStartDate : CalendarDate
  leaseEndDate : CalendarDate
  monthlyPayment : ℚ
  discountRate : ℚ
  prepaidRent : Option ℚ := none
  initialDirectCosts : Option ℚ := none
  leaseIncentives : Option ℚ := none
deriving DecidableEq

/-- The `LeaseCalculation` output record of `types.ts`. -/
structure LeaseCalculation where
  initialLeasePayment : ℚ
  initialRightOfUseAsset : ℚ
  initialLeaseLiability : ℚ
  monthlyInterestExpense : ℚ
  monthlyAmortizationExpense : ℚ
  monthlyLeaseLiabilityReduction : ℚ
  totalLeaseTerm : ℤ
  presentValueOfLeasePayments : ℚ
deriving DecidableEq

/-- One row of the amortization schedule (`MonthlySchedule` in `types.ts`). -/
structure MonthlySchedule where
  month : ℤ
  date : CalendarDate
  beginningLeaseLiability : ℚ
  interestExpense : ℚ
  leasePayment : ℚ
  principalReduction : ℚ
  endingLeaseLiability : ℚ
  rightOfUseAssetAmortization : ℚ
  rightOfUseAssetBalance : ℚ
deriving DecidableEq

/-- A debit or credit line (`AccountEntry` in `types.ts`). -/
structure AccountEntry where
  account : String
  amount : ℚ
deriving DecidableEq

/-- The `entryType` union of `types.ts`. -/
inductive EntryType where
  | initial_recognition
  | monthly_amortization
  | remeasurement
deriving DecidableEq

/-- A double-entry journal posting (`JournalEntry` in `types.ts`). -/
structure JournalEntry where
  id : Option String := none
  leaseId : String
  entryDate : CalendarDate
  entryType : EntryType
  description : String
  debits : List AccountEntry
  credits : List AccountEntry
deriving DecidableEq

/-- The empty string used for a missing lease id (`leaseData.id || ''`). -/
def emptyStr : String := ""

/-- `calculatePresentValue` from `lease-calculations.ts`: ordinary-annuity
present value at `monthlyRate = discountRate / 12`, with the undiscounted
product as the zero-rate fallback; the discounted branch is rounded to
cents. -/
def calculatePresentValue (monthlyPayment discountRate : ℚ)
    (numberOfPayments : ℤ) : ℚ :=
  let monthlyRate := discountRate / 12
  if monthlyRate = 0 then
    monthlyPayment * numberOfPayments
  else
    round2 (monthlyPayment *
      ((1 - (1 + monthlyRate) ^ (-numberOfPayments)) / monthlyRate))

/-- `calculateLeaseTerm` from `lease-calculations.ts`: whole-month date
difference via JavaScript `getFullYear`/`getMonth`. -/
def calculateLeaseTerm (startDate endDate : CalendarDate) : ℤ :=
  (getFullYear endDate - getFullYear startDate) * 12 +
    (getMonth endDate - getMonth startDate)

/-- `calculateLeaseMetrics` from `lease-calculations.ts`.  Note the
division `initialRightOfUseAsset / totalLeaseTerm`: in ℚ a zero term gives
0 for that field (JavaScript would give `Infinity`/`NaN`); no verified
property reads `monthlyAmortizationExpense` at a non-positive term. -/
def calculateLeaseMetrics (leaseData : LeaseData) : LeaseCalculation :=
  let totalLeaseTerm :=
    calculateLeaseTerm leaseData.leaseStartDate leaseData.leaseEndDate
  let presentValueOfLeasePayments :=
    calculatePresentValue leaseData.monthlyPayment leaseData.discountRate
      totalLeaseTerm
  let initialDirectCosts := leaseData.initialDirectCosts.getD 0
  let prepaidRent := leaseData.prepaidRent.getD 0
  let leaseIncentives := leaseData.leaseIncentives.getD 0
  let initialLeaseLiability := presentValueOfLeasePayments
  let initialRightOfUseAsset :=
    initialLeaseLiability + initialDirectCosts + prepaidRent - leaseIncentives
  let monthlyAmortizationExpense :=
    initialRightOfUseAsset / (totalLeaseTerm : ℚ)
  { initialLeasePayment := leaseData.monthlyPayment
    initialRightOfUseAsset := round2 initialRightOfUseAsset
    initialLeaseLiability := round2 initialLeaseLiability
    monthlyInterestExpense := 0
    monthlyAmortizationExpense := round2 monthlyAmortizationExpense
    monthlyLeaseLiabilityReduction := 0
    totalLeaseTerm := totalLeaseTerm
    presentValueOfLeasePayments := round2 presentValueOfLeasePayments }

/-- One iteration of the `generateAmortizationSchedule` loop, restricted to
the mutable state: the full-precision carried balances
`(currentLeaseLiability, currentRightOfUseAsset)` are updated to the
post-floor ending balances `Math.max(0, ...)` without rounding. -/
def stepState (leaseData : LeaseData) (calculation : LeaseCalculation)
    (s : ℚ × ℚ) : ℚ × ℚ :=
  let monthlyRate := leaseData.discountRate / 12
  let interestExpense := s.1 * monthlyRate
  let principalReduction := leaseData.monthlyPayment - interestExpense
  let endingLeaseLiability := s.1 - principalReduction
  let rightOfUseAssetBalance := s.2 - calculation.monthlyAmortizationExpense
  (max 0 endingLeaseLiability, max 0 rightOfUseAssetBalance)

/-- The row pushed by one iteration of the `generateAmortizationSchedule`
loop, as a function of the loop counter `month` and the carried state
`s = (currentLeaseLiability, currentRightOfUseAsset)`.  Every stored
monetary field is rounded to cents; the two ending balances are floored at
0 before rounding. -/
def scheduleRowOf (leaseData : LeaseData) (calculation : LeaseCalculation)
    (month : ℤ) (s : ℚ × ℚ) : MonthlySchedule :=
  let monthlyRate := leaseData.discountRate / 12
  let interestExpense := s.1 * monthlyRate
  let principalReduction := leaseData.monthlyPayment - interestExpense
  let endingLeaseLiability := s.1 - principalReduction
  let rightOfUseAssetAmortization := calculation.monthlyAmortizationExpense
  let rightOfUseAssetBalance := s.2 - rightOfUseAssetAmortization
  { month := month
    date := addMonths leaseData.leaseStartDate (month - 1)
    beginningLeaseLiability := round2 s.1
    interestExpense := round2 interestExpense
    leasePayment := leaseData.monthlyPayment
    principalReduction := round2 principalReduction
    endingLeaseLiability := round2 (max 0 endingLeaseLiability)
    rightOfUseAssetAmortization := round2 rightOfUseAssetAmortization
    rightOfUseAssetBalance := round2 (max 0 rightOfUseAssetBalance) }

/-- The loop of `generateAmortizationSchedule`, by recursion on the number
of remaining iterations, with the loop counter `month` and the carried
full-precision state made explicit. -/
def scheduleAux (leaseData : LeaseData) (calculation : LeaseCalculation) :
    ℕ → ℤ → ℚ × ℚ → List MonthlySchedule
  | 0, _, _ => []
  | k + 1, month, s =>
    scheduleRowOf leaseData calculation month s ::
      scheduleAux leaseData calculation k (month + 1)
        (stepState leaseData calculation s)

/-- `generateAmortizationSchedule` from `lease-calculations.ts`: the loop
`for (month = 1; month <= totalLeaseTerm; month++)` runs
`totalLeaseTerm.toNat` times starting from the rounded initial balances of
`calculateLeaseMetrics`. -/
def generateAmortizationSchedule (leaseData : LeaseData) :
    List MonthlySchedule :=
  let calculation := calculateLeaseMetrics leaseData
  scheduleAux leaseData calculation calculation.totalLeaseTerm.toNat 1
    (calculation.initialLeaseLiability, calculation.initialRightOfUseAsset)

/-- The carried loop state after `n` iterations of the schedule loop. -/
def leaseStateAfter (leaseData : LeaseData) (n : ℕ) : ℚ × ℚ :=
  let calculation := calculateLeaseMetrics leaseData
  (stepState leaseData calculation)^[n]
    (calculation.initialLeaseLiability, calculation.initialRightOfUseAsset)

/-- The `endingLeaseLiability` stored in the last schedule row (0 for an
empty schedule). -/
def lastEndingLiability (leaseData : LeaseData) : ℚ :=
  (((generateAmortizationSchedule leaseData).getLast?).map
    MonthlySchedule.endingLeaseLiability).getD 0

/-- `generateInitialRecognitionEntry` from `lease-calculations.ts`: debit
the right-of-use asset, credit the lease liability, then conditionally
(value strictly positive) credit prepaid rent, credit cash for initial
direct costs, and debit lease incentives receivable, in source order. -/
def generateInitialRecognitionEntry (leaseData : LeaseData) : JournalEntry :=
  let calculation := calculateLeaseMetrics leaseData
  let debits : List AccountEntry :=
    [{ account := "Right-of-Use Asset",
       amount := calculation.initialRightOfUseAsset }]
  let credits : List AccountEntry :=
    [{ account := "Lease Liability",
       amount := calculation.initialLeaseLiability }]
  let credits :=
    if 0 < leaseData.prepaidRent.getD 0 then
      credits ++ [{ account := "Prepaid Rent",
                    amount := leaseData.prepaidRent.getD 0 }]
    else credits
  let credits :=
    if 0 < leaseData.initialDirectCosts.getD 0 then
      credits ++ [{ account := "Cash",
                    amount := leaseData.initialDirectCosts.getD 0 }]
    else credits
  let debits :=
    if 0 < leaseData.leaseIncentives.getD 0 then
      debits ++ [{ account := "Lease Incentives Receivable",
                   amount := leaseData.leaseIncentives.getD 0 }]
    else debits
  { leaseId := leaseData.id.getD emptyStr
    entryDate := leaseData.leaseStartDate
    entryType := EntryType.initial_recognition
    description := "Initial recognition of lease: " ++ leaseData.leaseName
    debits := debits
    credits := credits }

/-- The per-row "interest expense and lease payment" entry of
`generateMonthlyAmortizationEntries`. -/
def interestEntryFor (leaseData : LeaseData) (monthData : MonthlySchedule) :
    JournalEntry :=
  { leaseId := leaseData.id.getD emptyStr
    entryDate := monthData.date
    entryType := EntryType.monthly_amortization
    description := "Month " ++ toString monthData.month ++
      " - Interest expense and lease payment"
    debits :=
      [{ account := "Interest Expense", amount := monthData.interestExpense },
       { account := "Lease Liability", amount := monthData.principalReduction }]
    credits :=
      [{ account := "Cash", amount := monthData.leasePayment }] }

/-- The per-row "right-of-use asset amortization" entry of
`generateMonthlyAmortizationEntries`. -/
def amortizationEntryFor (leaseData : LeaseData)
    (monthData : MonthlySchedule) : JournalEntry :=
  { leaseId := leaseData.id.getD emptyStr
    entryDate := monthData.date
    entryType := EntryType.monthly_amortization
    description := "Month " ++ toString monthData.month ++
      " - Right-of-use asset amortization"
    debits :=
      [{ account := "Amortization Expense - Right-of-Use Asset",
         amount := monthData.rightOfUseAssetAmortization }]
    credits :=
      [{ account := "Accumulated Amortization - Right-of-Use Asset",
         amount := monthData.rightOfUseAssetAmortization }] }

/-- `generateMonthlyAmortizationEntries` from `lease-calculations.ts`: for
each schedule row push the interest-and-payment entry, then the
amortization entry. -/
def generateMonthlyAmortizationEntries (leaseData : LeaseData) :
    List JournalEntry :=
  (generateAmortizationSchedule leaseData).flatMap fun monthData =>
    [interestEntryFor leaseData monthData,
     amortizationEntryFor leaseData monthData]

/-- Sum of the debit amounts of a journal entry. -/
def sumDebits (e : JournalEntry) : ℚ :=
  (e.debits.map AccountEntry.amount).sum

/-- Sum of the credit amounts of a journal entry. -/
def sumCredits (e : JournalEntry) : ℚ :=
  (e.credits.map AccountEntry.amount).sum

/-- Strict calendar order on dates (the `endDate > startDate` refinement of
`validations.ts`, on parsed dates). -/
def dateLt (a b : CalendarDate) : Prop :=
  a.year < b.year ∨ (a.year = b.year ∧
    (a.month < b.month ∨ (a.month = b.month ∧ a.day < b.day)))

instance (a b : CalendarDate) : Decidable (dateLt a b) := by
  unfold dateLt; infer_instance

/-- The numeric and date preconditions of the `leaseDataSchema` validation
layer (`validations.ts`): end strictly after start, positive monthly
payment, discount rate in `[0, 1]`, non-negative optional cost fields. -/
def ValidLeaseTerms (leaseData : LeaseData) : Prop :=
  dateLt leaseData.leaseStartDate leaseData.leaseEndDate ∧
  0 < leaseData.monthlyPayment ∧
  0 ≤ leaseData.discountRate ∧ leaseData.discountRate ≤ 1 ∧
  0 ≤ leaseData.prepaidRent.getD 0 ∧
  0 ≤ leaseData.initialDirectCosts.getD 0 ∧
  0 ≤ leaseData.leaseIncentives.getD 0

instance (leaseData : LeaseData) : Decidable (ValidLeaseTerms leaseData) := by
  unfold ValidLeaseTerms; infer_instance

/-- The mathematically exact present value of an ordinary annuity of
`payment` over `k` periods at periodic rate `m`, the reference value the
engine's rounded computation tracks. -/
def exactAnnuity (payment m : ℚ) (k : ℤ) : ℚ :=
  if m = 0 then payment * k else payment * ((1 - (1 + m) ^ (-k)) / m)

/-- A 12-month lease at a 5% annual rate, used as a concrete instance. -/
def exC2lease : LeaseData :=
  { userId := "u1", leaseName := "Office lease",
    leaseStartDate := { year := 2024, month := 1, day := 1 },
    leaseEndDate := { year := 2025, month := 1, day := 1 },
    monthlyPayment := 1000, discountRate := 1/20 }

/-- A lease whose discount rate 2 lies outside the documented `[0, 1]`
domain. -/
def exC1rate : LeaseData :=
  { userId := "u2", leaseName := "Out-of-domain rate",
    leaseStartDate := { year := 2024, month := 1, day := 1 },
    leaseEndDate := { year := 2025, month := 1, day := 1 },
    monthlyPayment := 1000, discountRate := 2 }

/-- A lease starting and ending inside the same calendar month, so the
term resolves to 0 whole months. -/
def exC1term : LeaseData :=
  { userId := "u3", leaseName := "Same-month lease",
    leaseStartDate := { year := 2024, month := 1, day := 1 },
    leaseEndDate := { year := 2024, month := 1, day := 31 },
    monthlyPayment := 1000, discountRate := 1/20 }

/-- A lease starting and ending inside the same calendar month, used
against the one-row claim. -/
def exC3lease : LeaseData :=
  { userId := "u4", leaseName := "Same-month lease 2",
    leaseStartDate := { year := 2024, month := 3, day := 5 },
    leaseEndDate := { year := 2024, month := 3, day := 25 },
    monthlyPayment := 500, discountRate := 1/10 }

/-- A 40-month lease at the maximal allowed annual rate 1.0: the cent
rounding of the initial present value is amplified by the effective
interest factor `(1 + 1/12)^40` past the 0.10 tolerance. -/
def exC4lease : LeaseData :=
  { userId := "u5", leaseName := "Max-rate lease",
    leaseStartDate := { year := 2020, month := 1, day := 1 },
    leaseEndDate := { year := 2023, month := 5, day := 1 },
    monthlyPayment := 157, discountRate := 1 }

/-- A small zero-rate lease satisfying every validation precondition. -/
def exSmallLease : LeaseData :=
  { userId := "u6", leaseName := "Small lease",
    leaseStartDate := { year := 2024, month := 1, day := 1 },
    leaseEndDate := { year := 2024, month := 3, day := 1 },
    monthlyPayment := 100, discountRate := 0 }

end ASC842

namespace ASC842

section Lemmas

/-- Rounding to cents moves a value by at most half a cent. -/
lemma abs_round2_sub_le (x : ℚ) : |round2 x - x| ≤ 1 / 200 := by
  have h1 : (⌊x * 100 + 1 / 2⌋ : ℚ) ≤ x * 100 + 1 / 2 := Int.floor_le _
  have h2 : x * 100 + 1 / 2 - 1 < (⌊x * 100 + 1 / 2⌋ : ℚ) := by
    have := Int.lt_floor_add_one (x * 100 + 1 / 2)
    linarith
  unfold round2
  rw [abs_le]
  constructor <;> linarith

/-- Rounding to cents is idempotent. -/
lemma round2_round2 (x : ℚ) : round2 (round2 x) = round2 x := by
  unfold round2
  have h : (⌊x * 100 + 1 / 2⌋ : ℚ) / 100 * 100 + 1 / 2 =
      ((⌊x * 100 + 1 / 2⌋ : ℤ) : ℚ) + 1 / 2 := by ring
  rw [h, Int.floor_int_add]
  norm_num

/-- Rounding preserves non-negativity. -/
lemma round2_nonneg {x : ℚ} (hx : 0 ≤ x) : 0 ≤ round2 x := by
  unfold round2
  have : (0 : ℤ) ≤ ⌊x * 100 + 1 / 2⌋ := Int.floor_nonneg.2 (by linarith)
  positivity

/-- A value at most a tenth stays at most a tenth after cent rounding. -/
lemma round2_le_tenth {x : ℚ} (hx : x ≤ 1 / 10) : round2 x ≤ 1 / 10 := by
  unfold round2
  have h : ⌊x * 100 + 1 / 2⌋ ≤ (10 : ℤ) := by
    have : ⌊x * 100 + 1 / 2⌋ ≤ ⌊(21 : ℚ) / 2⌋ := Int.floor_le_floor (by linarith)
    simpa using this.trans_eq (by norm_num)
  have h' : ((⌊x * 100 + 1 / 2⌋ : ℤ) : ℚ) ≤ 10 := by exact_mod_cast h
  linarith

/-- The loop of `generateAmortizationSchedule` produces one row per
remaining iteration. -/
lemma scheduleAux_length (leaseData : LeaseData)
    (calculation : LeaseCalculation) :
    ∀ (k : ℕ) (month : ℤ) (s : ℚ × ℚ),
      (scheduleAux leaseData calculation k month s).length = k := by
  intro k
  induction k with
  | zero => intro month s; rfl
  | succ n ih =>
    intro month s
    simp [scheduleAux, ih]

/-- The `i`-th row produced by the schedule loop comes from the `i`-fold
full-precision state update. -/
lemma scheduleAux_getElem? (leaseData : LeaseData)
    (calculation : LeaseCalculation) :
    ∀ (k i : ℕ) (month : ℤ) (s : ℚ × ℚ), i < k →
      (scheduleAux leaseData calculation k month s).get? i =
        some (scheduleRowOf leaseData calculation (month + i)
          ((stepState leaseData calculation)^[i] s)) := by
  intro k
  induction k with
  | zero => intro i month s h; omega
  | succ n ih =>
    intro i month s h
    cases i with
    | zero => simp [scheduleAux]
    | succ j =>
      have hj : j < n := by omega
      have hm : month + 1 + (j : ℤ) = month + ((j + 1 : ℕ) : ℤ) := by
        push_cast; ring
      simp only [scheduleAux, List.get?_cons_succ]
      rw [ih j (month + 1) (stepState leaseData calculation s) hj,
        Function.iterate_succ_apply, hm]

/-- Every row of the schedule loop has the `scheduleRowOf` shape. -/
lemma scheduleAux_mem (leaseData : LeaseData)
    (calculation : LeaseCalculation) :
    ∀ (k : ℕ) (month : ℤ) (s : ℚ × ℚ) (r : MonthlySchedule),
      r ∈ scheduleAux leaseData calculation k month s →
        ∃ (mo : ℤ) (t : ℚ × ℚ),
          r = scheduleRowOf leaseData calculation mo t := by
  intro k
  induction k with
  | zero => intro month s r h; simp [scheduleAux] at h
  | succ n ih =>
    intro month s r h
    simp only [scheduleAux, List.mem_cons] at h
    rcases h with h | h
    · exact ⟨month, s, h⟩
    · exact ih _ _ _ h

/-- The schedule length is the non-negative part of the resolved term. -/
lemma schedule_length (leaseData : LeaseData) :
    (generateAmortizationSchedule leaseData).length =
      (calculateLeaseMetrics leaseData).totalLeaseTerm.toNat :=
  scheduleAux_length _ _ _ _ _

/-- The `i`-th schedule row is the rounded image of the `i`-fold carried
state. -/
lemma schedule_get? (leaseData : LeaseData) (i : ℕ)
    (h : i < (calculateLeaseMetrics leaseData).totalLeaseTerm.toNat) :
    (generateAmortizationSchedule leaseData).get? i =
      some (scheduleRowOf leaseData (calculateLeaseMetrics leaseData)
        (1 + i) (leaseStateAfter leaseData i)) :=
  scheduleAux_getElem? _ _ _ _ _ _ h

/-- The carried state evolves by the full-precision `stepState` update. -/
lemma leaseStateAfter_succ (leaseData : LeaseData) (n : ℕ) :
    leaseStateAfter leaseData (n + 1) =
      stepState leaseData (calculateLeaseMetrics leaseData)
        (leaseStateAfter leaseData n) :=
  Function.iterate_succ_apply' _ _ _

/-- The stored ending liability of a row is the rounding of the
full-precision post-floor ending balance. -/
lemma scheduleRowOf_ending (leaseData : LeaseData)
    (calculation : LeaseCalculation) (month : ℤ) (s : ℚ × ℚ) :
    (scheduleRowOf leaseData calculation month s).endingLeaseLiability =
      round2 ((stepState leaseData calculation s).1) := rfl

/-- The stored beginning liability of a row is the rounding of the
full-precision carried balance. -/
lemma scheduleRowOf_beginning (leaseData : LeaseData)
    (calculation : LeaseCalculation) (month : ℤ) (s : ℚ × ℚ) :
    (scheduleRowOf leaseData calculation month s).beginningLeaseLiability =
      round2 s.1 := rfl

end Lemmas

end ASC842

namespace ASC842

/-- C8: for every pair of calendar dates, `calculateLeaseTerm` returns
`(endYear − startYear) × 12 + (endMonth − startMonth)`, a formula that
never reads the day-of-month of either date. -/
theorem c8_lease_term_formula (s e : CalendarDate) :
    calculateLeaseTerm s e = (e.year - s.year) * 12 + (e.month - s.month) := by
  unfold calculateLeaseTerm getFullYear getMonth
  ring

/-- C10: `calculateLeaseMetrics` always returns 0 for both
`monthlyInterestExpense` and `monthlyLeaseLiabilityReduction`; they are
constant placeholders. -/
theorem c10_placeholder_outputs (leaseData : LeaseData) :
    (calculateLeaseMetrics leaseData).monthlyInterestExpense = 0 ∧
    (calculateLeaseMetrics leaseData).monthlyLeaseLiabilityReduction = 0 :=
  ⟨rfl, rfl⟩

/-- C7: `calculatePresentValue` returns exactly `payment × periods` when
`annualRate / 12 = 0`, and otherwise the ordinary-annuity formula at the
monthly rate, rounded to 2 decimals. -/
theorem c7_present_value_spec (p r : ℚ) (n : ℤ) :
    (r / 12 = 0 → calculatePresentValue p r n = p * (n : ℚ)) ∧
    (r / 12 ≠ 0 → calculatePresentValue p r n =
      round2 (p * ((1 - (1 + r / 12) ^ (-n)) / (r / 12)))) := by
  constructor <;> intro h <;> simp [calculatePresentValue, h]

/-- C1 (amended): the engine has no error channel at all: for every input
record (non-positive resolved terms and out-of-domain rates included) the
core functions return plain values; a non-positive term yields the empty
schedule, and the metrics record is always built. -/
theorem c1_engine_total_no_rejection (leaseData : LeaseData) :
    (generateAmortizationSchedule leaseData).length =
      (calculateLeaseMetrics leaseData).totalLeaseTerm.toNat ∧
    (calculateLeaseMetrics leaseData).totalLeaseTerm =
      calculateLeaseTerm leaseData.leaseStartDate leaseData.leaseEndDate :=
  ⟨schedule_length leaseData, rfl⟩

/-- C3 (amended): a lease whose term resolves to 0 whole months produces
an empty amortization schedule (the loop body never runs), not a one-row
schedule. -/
theorem c3_zero_term_empty_schedule (leaseData : LeaseData)
    (h : calculateLeaseTerm leaseData.leaseStartDate leaseData.leaseEndDate
      = 0) :
    generateAmortizationSchedule leaseData = [] := by
  have ht : (calculateLeaseMetrics leaseData).totalLeaseTerm = 0 := h
  have hl := schedule_length leaseData
  rw [ht] at hl
  exact List.length_eq_zero.mp hl

/-- C2 (amended): row `i` of the schedule is the cent-rounded image of the
`i`-fold full-precision carried state, and the state carried into the next
iteration evolves by the unrounded post-floor update `stepState`, not by
the rounded row values. -/
theorem c2_rows_round_full_precision_state (leaseData : LeaseData) (i : ℕ)
    (h : i < (generateAmortizationSchedule leaseData).length) :
    (generateAmortizationSchedule leaseData).get? i =
      some (scheduleRowOf leaseData (calculateLeaseMetrics leaseData) (1 + i)
        (leaseStateAfter leaseData i)) ∧
    leaseStateAfter leaseData (i + 1) =
      stepState leaseData (calculateLeaseMetrics leaseData)
        (leaseStateAfter leaseData i) := by
  have h' : i < (calculateLeaseMetrics leaseData).totalLeaseTerm.toNat := by
    rw [← schedule_length leaseData]
    exact h
  exact ⟨schedule_get? leaseData i h', leaseStateAfter_succ leaseData i⟩

/-- C6: consecutive schedule rows chain: the stored beginning liability of
row `i+1` equals the stored ending liability of row `i`. -/
theorem c6_chaining_invariant (leaseData : LeaseData) (i : ℕ)
    (h : i + 1 < (generateAmortizationSchedule leaseData).length) :
    ((generateAmortizationSchedule leaseData).get
        ⟨i + 1, h⟩).beginningLeaseLiability =
      ((generateAmortizationSchedule leaseData).get
        ⟨i, Nat.lt_of_succ_lt h⟩).endingLeaseLiability := by
  have hlen := schedule_length leaseData
  have h1 : i + 1 < (calculateLeaseMetrics leaseData).totalLeaseTerm.toNat :=
    by omega
  have h0 : i < (calculateLeaseMetrics leaseData).totalLeaseTerm.toNat :=
    by omega
  have e1 : (generateAmortizationSchedule leaseData).get ⟨i + 1, h⟩ =
      scheduleRowOf leaseData (calculateLeaseMetrics leaseData) (1 + (i + 1))
        (leaseStateAfter leaseData (i + 1)) := by
    have g := schedule_get? leaseData (i + 1) h1
    rw [List.get?_eq_get h] at g
    exact Option.some.inj g
  have e0 : (generateAmortizationSchedule leaseData).get
        ⟨i, Nat.lt_of_succ_lt h⟩ =
      scheduleRowOf leaseData (calculateLeaseMetrics leaseData) (1 + i)
        (leaseStateAfter leaseData i) := by
    have g := schedule_get? leaseData i h0
    rw [List.get?_eq_get (Nat.lt_of_succ_lt h)] at g
    exact Option.some.inj g
  rw [e1, e0, scheduleRowOf_beginning, scheduleRowOf_ending,
    ← leaseStateAfter_succ]

end ASC842

namespace ASC842

section ConcreteEvaluations

attribute [local semireducible] Rat.mul Rat.inv Rat.add Rat.sub
set_option maxRecDepth 100000

/-- C1 (counterexample): with a discount rate of 2 (outside `[0, 1]`)
`calculateLeaseMetrics` returns an ordinary metrics record instead of
rejecting, and with a same-month lease (term 0) the schedule function
returns an ordinary (empty) result instead of rejecting; no
`DegenerateTermError` or `InvalidRateError` exists in the engine. -/
theorem c1_counterexample_returns_results :
    ¬ (0 ≤ exC1rate.discountRate ∧ exC1rate.discountRate ≤ 1) ∧
    (calculateLeaseMetrics exC1rate).totalLeaseTerm = 12 ∧
    (calculateLeaseMetrics exC1rate).presentValueOfLeasePayments =
      25282 / 5 ∧
    calculateLeaseTerm exC1term.leaseStartDate exC1term.leaseEndDate = 0 ∧
    generateAmortizationSchedule exC1term = [] := by
  decide

/-- C2 (counterexample): for a 12-month 5% lease, the stored ending
liability of row 1 is the rounding of the carried state after one
iteration, but that carried state itself is not cent-rounded, so the
beginning balance used by iteration 2 differs from row 1's rounded ending
balance. -/
theorem c2_counterexample_unrounded_carry :
    ((generateAmortizationSchedule exC2lease).get? 0).map
        MonthlySchedule.endingLeaseLiability =
      some (round2 (leaseStateAfter exC2lease 1).1) ∧
    (leaseStateAfter exC2lease 1).1 ≠
      round2 (leaseStateAfter exC2lease 1).1 := by
  decide

/-- C2 (witness): the amended row/state correspondence instantiated at the
12-month 5% lease and row index 0. -/
theorem c2_witness :
    (generateAmortizationSchedule exC2lease).get? 0 =
      some (scheduleRowOf exC2lease (calculateLeaseMetrics exC2lease) (1 + 0)
        (leaseStateAfter exC2lease 0)) ∧
    leaseStateAfter exC2lease (0 + 1) =
      stepState exC2lease (calculateLeaseMetrics exC2lease)
        (leaseStateAfter exC2lease 0) :=
  c2_rows_round_full_precision_state exC2lease 0 (by decide)

/-- C3 (counterexample): a lease contained in one calendar month resolves
to a 0-month term and its schedule has zero rows, not exactly one. -/
theorem c3_counterexample_zero_rows :
    exC3lease.leaseStartDate.year = exC3lease.leaseEndDate.year ∧
    exC3lease.leaseStartDate.month = exC3lease.leaseEndDate.month ∧
    calculateLeaseTerm exC3lease.leaseStartDate exC3lease.leaseEndDate = 0 ∧
    (generateAmortizationSchedule exC3lease).length = 0 ∧
    (generateAmortizationSchedule exC3lease).length ≠ 1 := by
  decide

/-- C3 (witness): the amended empty-schedule statement instantiated at a
concrete same-month lease. -/
theorem c3_witness :
    calculateLeaseTerm exC3lease.leaseStartDate exC3lease.leaseEndDate = 0 ∧
    generateAmortizationSchedule exC3lease = [] :=
  ⟨by decide, c3_zero_term_empty_schedule exC3lease (by decide)⟩

/-- C6 (witness): the chaining invariant instantiated at rows 0 and 1 of
the 12-month 5% lease. -/
theorem c6_witness :
    ((generateAmortizationSchedule exC2lease).get
        ⟨1, by decide⟩).beginningLeaseLiability =
      ((generateAmortizationSchedule exC2lease).get
        ⟨0, by decide⟩).endingLeaseLiability :=
  c6_chaining_invariant exC2lease 0 (by decide)

/-- C7 (witness): the zero-rate branch at `(5000, 0, 36)` and the
discounted branch at `(5000, 5%, 36)`. -/
theorem c7_witness :
    calculatePresentValue 5000 0 36 = 5000 * ((36 : ℤ) : ℚ) ∧
    calculatePresentValue 5000 (1 / 20) 36 =
      round2 (5000 *
        ((1 - (1 + (1 / 20) / 12) ^ (-(36 : ℤ))) / ((1 / 20) / 12))) :=
  ⟨(c7_present_value_spec 5000 0 36).1 (by norm_num),
   (c7_present_value_spec 5000 (1 / 20) 36).2 (by norm_num)⟩

end ConcreteEvaluations

end ASC842

namespace ASC842

section EntryShape

/-- Emitting two entries per row doubles the length. -/
lemma flatMap_pair_length {α β : Type} (f g : α → β) (l : List α) :
    (l.flatMap fun x => [f x, g x]).length = 2 * l.length := by
  induction l with
  | nil => rfl
  | cons x t ih =>
    simp only [List.flatMap_cons, List.length_cons, List.length_append,
      List.length_nil, ih]
    omega

/-- The entry at even index `2i` comes from row `i` via `f`. -/
lemma flatMap_pair_get?_even {α β : Type} (f g : α → β) (l : List α)
    (i : ℕ) :
    (l.flatMap fun x => [f x, g x]).get? (2 * i) = (l.get? i).map f := by
  induction l generalizing i with
  | nil => simp
  | cons x t ih =>
    cases i with
    | zero => simp [List.flatMap_cons]
    | succ j =>
      have h2 : 2 * (j + 1) = 2 * j + 1 + 1 := by ring
      simp only [List.flatMap_cons, List.cons_append, List.nil_append, h2,
        List.get?_cons_succ]
      exact ih j

/-- The entry at odd index `2i + 1` comes from row `i` via `g`. -/
lemma flatMap_pair_get?_odd {α β : Type} (f g : α → β) (l : List α)
    (i : ℕ) :
    (l.flatMap fun x => [f x, g x]).get? (2 * i + 1) = (l.get? i).map g := by
  induction l generalizing i with
  | nil => simp
  | cons x t ih =>
    cases i with
    | zero => simp [List.flatMap_cons]
    | succ j =>
      have h2 : 2 * (j + 1) + 1 = 2 * j + 1 + 1 + 1 := by ring
      simp only [List.flatMap_cons, List.cons_append, List.nil_append, h2,
        List.get?_cons_succ]
      exact ih j

end EntryShape

/-- C9: the monthly generator emits exactly `2N` entries for an `N`-row
schedule — for each row index `i`, the interest-and-payment entry at
position `2i` immediately followed by the amortization entry at position
`2i + 1` — and the initial generator yields a single entry tagged
`initial_recognition`. -/
theorem c9_entry_shape (leaseData : LeaseData) :
    (generateMonthlyAmortizationEntries leaseData).length =
      2 * (generateAmortizationSchedule leaseData).length ∧
    (∀ i : ℕ,
      (generateMonthlyAmortizationEntries leaseData).get? (2 * i) =
        ((generateAmortizationSchedule leaseData).get? i).map
          (interestEntryFor leaseData) ∧
      (generateMonthlyAmortizationEntries leaseData).get? (2 * i + 1) =
        ((generateAmortizationSchedule leaseData).get? i).map
          (amortizationEntryFor leaseData)) ∧
    (generateInitialRecognitionEntry leaseData).entryType =
      EntryType.initial_recognition :=
  ⟨flatMap_pair_length _ _ _,
   fun i => ⟨flatMap_pair_get?_even _ _ _ i, flatMap_pair_get?_odd _ _ _ i⟩,
   rfl⟩

end ASC842

namespace ASC842

/-- The debit and credit totals of the initial-recognition entry, by cases
on the three optional components. -/
lemma initial_entry_sums (ld : LeaseData) :
    sumDebits (generateInitialRecognitionEntry ld) =
      (calculateLeaseMetrics ld).initialRightOfUseAsset +
        (if 0 < ld.leaseIncentives.getD 0 then ld.leaseIncentives.getD 0
         else 0) ∧
    sumCredits (generateInitialRecognitionEntry ld) =
      (calculateLeaseMetrics ld).initialLeaseLiability +
        (if 0 < ld.prepaidRent.getD 0 then ld.prepaidRent.getD 0 else 0) +
        (if 0 < ld.initialDirectCosts.getD 0 then ld.initialDirectCosts.getD 0
         else 0) := by
  unfold generateInitialRecognitionEntry sumDebits sumCredits
  constructor <;> split_ifs <;> simp <;> ring

/-- C5: every journal entry produced by the initial-recognition generator
or the monthly generator balances: debit total and credit total differ by
at most 0.01. -/
theorem c5_entries_balanced (leaseData : LeaseData)
    (hv : ValidLeaseTerms leaseData) (e : JournalEntry)
    (he : e = generateInitialRecognitionEntry leaseData ∨
      e ∈ generateMonthlyAmortizationEntries leaseData) :
    |sumDebits e - sumCredits e| ≤ 1 / 100 := by
  obtain ⟨-, -, -, -, hpr, hidc, hinc⟩ := hv
  rcases he with he | he
  · subst he
    obtain ⟨hd, hc⟩ := initial_entry_sums leaseData
    rw [hd, hc]
    have hROU : (calculateLeaseMetrics leaseData).initialRightOfUseAsset =
        round2 (calculatePresentValue leaseData.monthlyPayment
            leaseData.discountRate
            (calculateLeaseTerm leaseData.leaseStartDate
              leaseData.leaseEndDate) +
          leaseData.initialDirectCosts.getD 0 +
          leaseData.prepaidRent.getD 0 -
          leaseData.leaseIncentives.getD 0) := rfl
    have hL : (calculateLeaseMetrics leaseData).initialLeaseLiability =
        round2 (calculatePresentValue leaseData.monthlyPayment
          leaseData.discountRate
          (calculateLeaseTerm leaseData.leaseStartDate
            leaseData.leaseEndDate)) := rfl
    have hIf1 : (if 0 < leaseData.leaseIncentives.getD 0 then
        leaseData.leaseIncentives.getD 0 else 0) =
        leaseData.leaseIncentives.getD 0 := by
      split_ifs with h
      · rfl
      · linarith [le_antisymm (not_lt.mp h) hinc]
    have hIf2 : (if 0 < leaseData.prepaidRent.getD 0 then
        leaseData.prepaidRent.getD 0 else 0) =
        leaseData.prepaidRent.getD 0 := by
      split_ifs with h
      · rfl
      · linarith [le_antisymm (not_lt.mp h) hpr]
    have hIf3 : (if 0 < leaseData.initialDirectCosts.getD 0 then
        leaseData.initialDirectCosts.getD 0 else 0) =
        leaseData.initialDirectCosts.getD 0 := by
      split_ifs with h
      · rfl
      · linarith [le_antisymm (not_lt.mp h) hidc]
    rw [hROU, hL, hIf1, hIf2, hIf3]
    have hb1 := abs_round2_sub_le (calculatePresentValue
        leaseData.monthlyPayment leaseData.discountRate
        (calculateLeaseTerm leaseData.leaseStartDate leaseData.leaseEndDate) +
      leaseData.initialDirectCosts.getD 0 +
      leaseData.prepaidRent.getD 0 -
      leaseData.leaseIncentives.getD 0)
    have hb2 := abs_round2_sub_le (calculatePresentValue
      leaseData.monthlyPayment leaseData.discountRate
      (calculateLeaseTerm leaseData.leaseStartDate leaseData.leaseEndDate))
    rw [abs_le] at hb1 hb2 ⊢
    constructor <;> linarith [hb1.1, hb1.2, hb2.1, hb2.2]
  · rw [generateMonthlyAmortizationEntries, List.mem_flatMap] at he
    obtain ⟨md, hmd, hme⟩ := he
    have hshape := scheduleAux_mem leaseData (calculateLeaseMetrics leaseData)
      _ _ _ md hmd
    obtain ⟨mo, t, rfl⟩ := hshape
    simp only [List.mem_cons, List.not_mem_nil, or_false] at hme
    rcases hme with rfl | rfl
    · have hi : (scheduleRowOf leaseData (calculateLeaseMetrics leaseData)
          mo t).interestExpense =
          round2 (t.1 * (leaseData.discountRate / 12)) := rfl
      have hp : (scheduleRowOf leaseData (calculateLeaseMetrics leaseData)
          mo t).principalReduction =
          round2 (leaseData.monthlyPayment -
            t.1 * (leaseData.discountRate / 12)) := rfl
      have hpay : (scheduleRowOf leaseData (calculateLeaseMetrics leaseData)
          mo t).leasePayment = leaseData.monthlyPayment := rfl
      simp only [interestEntryFor, sumDebits, sumCredits, List.map_cons,
        List.map_nil, List.sum_cons, List.sum_nil, hi, hp, hpay]
      have hb1 := abs_round2_sub_le (t.1 * (leaseData.discountRate / 12))
      have hb2 := abs_round2_sub_le (leaseData.monthlyPayment -
        t.1 * (leaseData.discountRate / 12))
      rw [abs_le] at hb1 hb2 ⊢
      constructor <;> linarith [hb1.1, hb1.2, hb2.1, hb2.2]
    · simp only [amortizationEntryFor, sumDebits, sumCredits, List.map_cons,
        List.map_nil, List.sum_cons, List.sum_nil]
      simp

end ASC842

namespace ASC842

section ConcreteEvaluationsTwo

attribute [local semireducible] Rat.mul Rat.inv Rat.add Rat.sub
set_option maxRecDepth 100000

/-- C5 (witness): the balance bound instantiated at the initial entry of a
concrete valid zero-rate lease. -/
theorem c5_witness :
    |sumDebits (generateInitialRecognitionEntry exSmallLease) -
      sumCredits (generateInitialRecognitionEntry exSmallLease)| ≤ 1 / 100 :=
  c5_entries_balanced exSmallLease (by decide) _ (Or.inl rfl)

end ConcreteEvaluationsTwo

end ASC842

namespace ASC842

section ResidualBound

/-- The empty annuity is worth nothing. -/
lemma exactAnnuity_zero (p m : ℚ) : exactAnnuity p m 0 = 0 := by
  unfold exactAnnuity
  split_ifs <;> simp

/-- One-period recurrence of the exact annuity value. -/
lemma exactAnnuity_step (p m : ℚ) (hm : 0 ≤ m) (j : ℤ) :
    exactAnnuity p m (j - 1) = exactAnnuity p m j * (1 + m) - p := by
  unfold exactAnnuity
  by_cases h : m = 0
  · rw [if_pos h, if_pos h, h]
    push_cast
    ring
  · rw [if_neg h, if_neg h]
    have h1m : (1 : ℚ) + m ≠ 0 := by
      have : (0 : ℚ) < 1 + m := by linarith
      exact ne_of_gt this
    have hz : (1 + m) ^ (-(j - 1)) = (1 + m) ^ (-j) * (1 + m) := by
      rw [show -(j - 1) = -j + 1 by ring, zpow_add_one₀ h1m]
    rw [hz]
    field_simp
    ring

/-- The exact annuity value is non-negative on the valid domain. -/
lemma exactAnnuity_nonneg {p m : ℚ} (hp : 0 ≤ p) (hm : 0 ≤ m) {k : ℤ}
    (hk : 0 ≤ k) : 0 ≤ exactAnnuity p m k := by
  unfold exactAnnuity
  by_cases h : m = 0
  · rw [if_pos h]
    have : (0 : ℚ) ≤ (k : ℚ) := by exact_mod_cast hk
    exact mul_nonneg hp this
  · rw [if_neg h]
    have hm' : 0 < m := lt_of_le_of_ne hm (Ne.symm h)
    have h1 : (1 + m) ^ (-k) ≤ 1 :=
      zpow_le_one_of_nonpos₀ (by linarith) (by omega)
    exact mul_nonneg hp (div_nonneg (by linarith) (le_of_lt hm'))

/-- Flooring at zero can only bring a value closer to any non-negative
target. -/
lemma abs_max_zero_sub_le (a b : ℚ) (hb : 0 ≤ b) :
    |max 0 a - b| ≤ |a - b| := by
  rcases le_total a 0 with h | h
  · rw [max_eq_left h]
    have habs : |a - b| = b - a := by
      rw [abs_of_nonpos (by linarith), neg_sub]
    rw [habs, abs_le]
    constructor <;> linarith
  · rw [max_eq_right h]

/-- Error propagation through the floored effective-interest recursion: a
sequence that starts within half a cent of the exact annuity value and
follows the floored update stays within `(1 + m)^n` half-cents of the
exact remaining value. -/
lemma residual_bound (p m : ℚ) (hp : 0 ≤ p) (hm : 0 ≤ m) (T : ℤ)
    (L : ℕ → ℚ)
    (h0 : |L 0 - exactAnnuity p m T| ≤ 1 / 200)
    (hstep : ∀ n : ℕ, L (n + 1) = max 0 (L n * (1 + m) - p)) :
    ∀ n : ℕ, (n : ℤ) ≤ T →
      |L n - exactAnnuity p m (T - n)| ≤ 1 / 200 * (1 + m) ^ n := by
  intro n
  induction n with
  | zero =>
    intro _
    simpa using h0
  | succ k ih =>
    intro hk1
    have hk : (k : ℤ) ≤ T := by omega
    have IH := ih hk
    have hE : exactAnnuity p m (T - (k + 1 : ℕ)) =
        exactAnnuity p m (T - k) * (1 + m) - p := by
      have h := exactAnnuity_step p m hm (T - k)
      have hc : T - ((k + 1 : ℕ) : ℤ) = T - k - 1 := by push_cast; ring
      rw [hc, h]
    have hEnn : 0 ≤ exactAnnuity p m (T - (k + 1 : ℕ)) :=
      exactAnnuity_nonneg hp hm (by omega)
    calc |L (k + 1) - exactAnnuity p m (T - (k + 1 : ℕ))|
        = |max 0 (L k * (1 + m) - p) - exactAnnuity p m (T - (k + 1 : ℕ))| :=
          by rw [hstep k]
      _ ≤ |(L k * (1 + m) - p) - exactAnnuity p m (T - (k + 1 : ℕ))| :=
          abs_max_zero_sub_le _ _ hEnn
      _ = |(L k - exactAnnuity p m (T - k)) * (1 + m)| := by
          rw [hE]; congr 1; ring
      _ = |L k - exactAnnuity p m (T - k)| * (1 + m) := by
          rw [abs_mul, abs_of_nonneg (by linarith : (0 : ℚ) ≤ 1 + m)]
      _ ≤ (1 / 200 * (1 + m) ^ k) * (1 + m) :=
          mul_le_mul_of_nonneg_right IH (by linarith)
      _ = 1 / 200 * (1 + m) ^ (k + 1) := by rw [pow_succ]; ring

/-- The engine's rounded initial liability is within half a cent of the
exact annuity present value of the whole term. -/
lemma initial_close (ld : LeaseData) :
    |(calculateLeaseMetrics ld).initialLeaseLiability -
      exactAnnuity ld.monthlyPayment (ld.discountRate / 12)
        (calculateLeaseMetrics ld).totalLeaseTerm| ≤ 1 / 200 := by
  have hL : (calculateLeaseMetrics ld).initialLeaseLiability =
      round2 (calculatePresentValue ld.monthlyPayment ld.discountRate
        (calculateLeaseMetrics ld).totalLeaseTerm) := rfl
  rw [hL]
  simp only [calculatePresentValue, exactAnnuity]
  by_cases hm0 : ld.discountRate / 12 = 0
  · rw [if_pos hm0, if_pos hm0]
    exact abs_round2_sub_le _
  · rw [if_neg hm0, if_neg hm0, round2_round2]
    exact abs_round2_sub_le _

/-- The carried liability follows the floored effective-interest update. -/
lemma leaseState_fst_step (ld : LeaseData) (n : ℕ) :
    (leaseStateAfter ld (n + 1)).1 =
      max 0 ((leaseStateAfter ld n).1 * (1 + ld.discountRate / 12) -
        ld.monthlyPayment) := by
  rw [leaseStateAfter_succ]
  show max 0 ((leaseStateAfter ld n).1 -
      (ld.monthlyPayment -
        (leaseStateAfter ld n).1 * (ld.discountRate / 12))) = _
  congr 1
  ring

/-- The carried liability starts at the metrics' rounded initial
liability. -/
lemma leaseState_zero (ld : LeaseData) :
    (leaseStateAfter ld 0).1 =
      (calculateLeaseMetrics ld).initialLeaseLiability := rfl

/-- For a positive term, the stored ending liability of the last row is
the rounding of the carried liability after the full term. -/
lemma lastEndingLiability_eq (ld : LeaseData)
    (hT : 0 < (calculateLeaseMetrics ld).totalLeaseTerm) :
    lastEndingLiability ld =
      round2 ((leaseStateAfter ld
        (calculateLeaseMetrics ld).totalLeaseTerm.toNat).1) := by
  have hN1 : 1 ≤ (calculateLeaseMetrics ld).totalLeaseTerm.toNat := by omega
  have hlen := schedule_length ld
  have hg := schedule_get? ld
    ((calculateLeaseMetrics ld).totalLeaseTerm.toNat - 1) (by omega)
  unfold lastEndingLiability
  rw [List.getLast?_eq_getElem?, ← List.get?_eq_getElem?, hlen, hg]
  simp only [Option.map_some', Option.getD_some]
  rw [scheduleRowOf_ending, ← leaseStateAfter_succ]
  have hidx : (calculateLeaseMetrics ld).totalLeaseTerm.toNat - 1 + 1 =
      (calculateLeaseMetrics ld).totalLeaseTerm.toNat := by omega
  rw [hidx]

end ResidualBound

end ASC842

namespace ASC842

/-- C4 (amended): for every valid lease whose accumulated monthly growth
factor `(1 + rate/12)^term` is at most 20, the ending liability stored in
the last schedule row is within 0.10 of 0.  (Without the growth-factor
bound the claim fails: the initial present value is rounded to a cent and
the unrounded recursion amplifies that error by exactly this factor.) -/
theorem c4_small_residual (leaseData : LeaseData)
    (hv : ValidLeaseTerms leaseData)
    (hT : 0 < (calculateLeaseMetrics leaseData).totalLeaseTerm)
    (hpow : (1 + leaseData.discountRate / 12) ^
        (calculateLeaseMetrics leaseData).totalLeaseTerm.toNat ≤ 20) :
    |lastEndingLiability leaseData| ≤ 1 / 10 := by
  obtain ⟨-, hp, hr0, -, -, -, -⟩ := hv
  have hm : (0 : ℚ) ≤ leaseData.discountRate / 12 :=
    div_nonneg hr0 (by norm_num)
  have hb := residual_bound leaseData.monthlyPayment
    (leaseData.discountRate / 12) (le_of_lt hp) hm
    (calculateLeaseMetrics leaseData).totalLeaseTerm
    (fun n => (leaseStateAfter leaseData n).1)
    (by simpa [leaseState_zero] using initial_close leaseData)
    (fun n => leaseState_fst_step leaseData n)
  have hbN := hb (calculateLeaseMetrics leaseData).totalLeaseTerm.toNat
    (by omega)
  simp only at hbN
  have hT0 : (calculateLeaseMetrics leaseData).totalLeaseTerm -
      ((calculateLeaseMetrics leaseData).totalLeaseTerm.toNat : ℤ) = 0 := by
    omega
  rw [hT0, exactAnnuity_zero, sub_zero] at hbN
  have h20 : 1 / 200 * (1 + leaseData.discountRate / 12) ^
      (calculateLeaseMetrics leaseData).totalLeaseTerm.toNat ≤ 1 / 10 := by
    have := mul_le_mul_of_nonneg_left hpow
      (by norm_num : (0 : ℚ) ≤ 1 / 200)
    linarith
  have hSabs : |(leaseStateAfter leaseData
      (calculateLeaseMetrics leaseData).totalLeaseTerm.toNat).1| ≤ 1 / 10 :=
    le_trans hbN h20
  have hS0 : 0 ≤ (leaseStateAfter leaseData
      (calculateLeaseMetrics leaseData).totalLeaseTerm.toNat).1 := by
    obtain ⟨k, hk⟩ : ∃ k,
        (calculateLeaseMetrics leaseData).totalLeaseTerm.toNat = k + 1 :=
      ⟨(calculateLeaseMetrics leaseData).totalLeaseTerm.toNat - 1, by omega⟩
    rw [hk, leaseState_fst_step]
    exact le_max_left _ _
  rw [lastEndingLiability_eq leaseData hT,
    abs_of_nonneg (round2_nonneg hS0)]
  apply round2_le_tenth
  rw [abs_of_nonneg hS0] at hSabs
  exact hSabs

end ASC842

namespace ASC842

section ConcreteEvaluationsThree

attribute [local semireducible] Rat.mul Rat.inv Rat.add Rat.sub
set_option maxRecDepth 400000

/-- C4 (counterexample): a fully valid 40-month lease at the maximal
allowed annual rate 1.0 leaves a final stored ending liability of 0.12,
outside the 0.10 tolerance the claim asserts for all valid inputs. -/
theorem c4_counterexample_residual_exceeds_tolerance :
    ValidLeaseTerms exC4lease ∧
    lastEndingLiability exC4lease = 3 / 25 ∧
    1 / 10 < |lastEndingLiability exC4lease| := by
  decide

/-- C4 (witness): the amended bound instantiated at a concrete valid
zero-rate two-month lease, whose growth factor is 1. -/
theorem c4_witness : |lastEndingLiability exSmallLease| ≤ 1 / 10 :=
  c4_small_residual exSmallLease (by decide) (by decide) (by decide)

end ConcreteEvaluationsThree

end ASC842
